import Mathlib

/-!
Verification of the progressbar widget (src/widgets/progressbar.c).

The development shallowly embeds the widget core:
* the bar registry (`Bar`, `progressbar_bar_add`, the range-reconciliation
  hack of `luaA_progressbar_bar_properties_set`, the clamping of
  `luaA_progressbar_bar_data_add`),
* the layout computation and the render pipeline of `progressbar_draw`,
  producing an explicit list of draw commands.

C `float`/`double` arithmetic is modelled with exact rationals, C `int`
arithmetic with `Int` together with C truncating division (`Int.div`) and a
truncating cast `cint`.  Color resolution (`xcolor_new`) is external; its
outcome is passed in as an `Option Color`.  The horizontal offset helper
`widget_calculate_offset` is external as well; the computed x origin is an
input `areaX`.
-/

/-- Colors are abstract tokens; the core never inspects them, it only routes
them into draw commands. -/
abbrev Color := ℕ

/-- The ambient theme colors (`globalconf.colors`), passed explicitly. -/
structure Theme where
  fg : Color
  bg : Color
deriving DecidableEq

/-- One bar of the progressbar, mirroring `struct bar_t`.  The two optional
gradient colors mirror the nullable pointers `pfg_center` and `pfg_end`. -/
structure Bar where
  title : String
  min_value : ℚ
  max_value : ℚ
  value : ℚ
  reverse : Bool
  fg : Color
  fg_off : Color
  bg : Color
  bordercolor : Color
  pfg_center : Option Color
  pfg_end : Option Color
deriving DecidableEq

/-- The widget private data, mirroring `progressbar_data_t`. -/
structure ProgressbarData where
  width : ℤ
  gap : ℤ
  border_width : ℤ
  border_padding : ℤ
  ticks_gap : ℤ
  ticks_count : ℤ
  vertical : Bool
  height : ℚ
  bars : List Bar
deriving DecidableEq

/-- Defaults installed by `progressbar_new` (remaining fields are zeroed by
`p_new`). -/
def progressbar_new : ProgressbarData :=
  { width := 80, gap := 2, border_width := 1, border_padding := 0,
    ticks_gap := 1, ticks_count := 0, vertical := false,
    height := 8/10, bars := [] }

/-- Kernel-computable floor of a rational (`Rat.floor`). -/
def rfloor (q : ℚ) : ℤ := q.num / (q.den : ℤ)

/-- Truncating C cast `(int)` on a real quantity: rounds toward zero. -/
def cint (q : ℚ) : ℤ :=
  if q < 0 then -(rfloor (-q)) else rfloor q

/-- C integer division: truncates toward zero. -/
def cdiv (a b : ℤ) : ℤ :=
  Int.tdiv a b

/-- A fresh bar as built by `progressbar_bar_add`: theme colors, range
`[0, 100]`, value `0`, no gradient colors. -/
def progressbar_bar_add (th : Theme) (title : String) : Bar :=
  { title := title, min_value := 0, max_value := 100, value := 0,
    reverse := false, fg := th.fg, fg_off := th.bg, bg := th.bg,
    bordercolor := th.fg, pfg_center := none, pfg_end := none }

/-- The optional-gradient-color setter `progressbar_pcolor_set`.  `old` is the
current slot, `res` the outcome of the external `xcolor_new` resolution
(`none` = failure).  When the slot was empty a fresh zeroed cell is allocated
and, on failure, released again (the `flag` dance of the C code). -/
def progressbar_pcolor_set (old : Option Color) (res : Option Color) :
    Option Color :=
  let flag := old.isNone
  let slot : Color := old.getD 0
  match res with
  | some c => some c
  | none => if flag then none else some slot

/-- A direct (non-pointer) color slot updated by `xcolor_new`: an absent key
leaves the slot alone, and a failed resolution also leaves it alone.
`k = none` means the key was absent, `k = some none` a failed resolution. -/
def direct_color_set (cur : Color) (k : Option (Option Color)) : Color :=
  match k with
  | some (some c) => c
  | _ => cur

/-- The property table passed to the bar-properties-set call.  For each color
key, `none` = key absent, `some none` = key present but resolution failed,
`some (some c)` = key present and resolved to `c`. -/
structure BarProps where
  fg : Option (Option Color) := none
  bg : Option (Option Color) := none
  fg_off : Option (Option Color) := none
  border_color : Option (Option Color) := none
  fg_center : Option (Option Color) := none
  fg_end : Option (Option Color) := none
  min_value : Option ℚ := none
  max_value : Option ℚ := none
  reverse : Option Bool := none

/-- The range-reconciliation portion of `luaA_progressbar_bar_properties_set`
(lines 491-504): store the new minimum, nudge the maximum by epsilon if it is
not above the minimum, raise the value to the minimum, then store the new
maximum, pull the minimum below it if needed, and lower the value to the
maximum. -/
def bar_range_set (b : Bar) (nmin nmax : Option ℚ) : Bar :=
  let b := { b with min_value := nmin.getD b.min_value }
  let b := if b.max_value ≤ b.min_value then
      { b with max_value := b.max_value + 1/10000 } else b
  let b := if b.value < b.min_value then { b with value := b.min_value } else b
  let b := { b with max_value := nmax.getD b.max_value }
  let b := if b.min_value ≥ b.max_value then
      { b with min_value := b.max_value - 1/10000 } else b
  let b := if b.value > b.max_value then { b with value := b.max_value } else b
  b

/-- The color portion of `luaA_progressbar_bar_properties_set`
(lines 478-489). -/
def bar_colors_set (b : Bar) (p : BarProps) : Bar :=
  { b with
    fg := direct_color_set b.fg p.fg,
    bg := direct_color_set b.bg p.bg,
    fg_off := direct_color_set b.fg_off p.fg_off,
    bordercolor := direct_color_set b.bordercolor p.border_color,
    pfg_center := match p.fg_center with
      | none => b.pfg_center
      | some r => progressbar_pcolor_set b.pfg_center r,
    pfg_end := match p.fg_end with
      | none => b.pfg_end
      | some r => progressbar_pcolor_set b.pfg_end r }

/-- The whole per-bar body of `luaA_progressbar_bar_properties_set`: colors,
then the range hack, then `reverse`. -/
def bar_props_apply (b : Bar) (p : BarProps) : Bar :=
  let b1 := bar_colors_set b p
  let b2 := bar_range_set b1 p.min_value p.max_value
  { b2 with reverse := p.reverse.getD b2.reverse }

/-- Upsert by title: the first bar with a matching title is updated in place;
when none matches, a fresh bar (updated) is appended, as both Lua entry
points do. -/
def bar_update (th : Theme) (title : String) (f : Bar → Bar) :
    List Bar → List Bar
  | [] => [f (progressbar_bar_add th title)]
  | b :: rest =>
    if b.title = title then f b :: rest
    else b :: bar_update th title f rest

/-- The clamp of `luaA_progressbar_bar_data_add` (line 538):
`MAX(min_value, MIN(max_value, x))`. -/
def bar_value_clamp (b : Bar) (x : ℚ) : Bar :=
  { b with value := max b.min_value (min b.max_value x) }

/-- A mutating operation on the bar collection: one of the two Lua entry
points that touch bars. -/
inductive PbOp where
  | propSet (title : String) (p : BarProps)
  | dataAdd (title : String) (x : ℚ)

/-- Apply one operation to the bar collection. -/
def apply_op (th : Theme) (bars : List Bar) : PbOp → List Bar
  | .propSet t p => bar_update th t (fun b => bar_props_apply b p) bars
  | .dataAdd t x => bar_update th t (fun b => bar_value_clamp b x) bars

/-- Apply a sequence of operations starting from the empty collection of a
freshly created widget. -/
def apply_ops (th : Theme) (ops : List PbOp) : List Bar :=
  ops.foldl (apply_op th) []

/-- The validated-range invariant of a bar. -/
def barInv (b : Bar) : Prop :=
  b.min_value < b.max_value ∧ b.min_value ≤ b.value ∧ b.value ≤ b.max_value

instance (b : Bar) : Decidable (barInv b) := by
  unfold barInv; infer_instance

/-! ### The draw pipeline (`progressbar_draw`) -/

/-- Whether tick quantization is active: the C truthiness test
`d->ticks_count && d->ticks_gap`. -/
def ticks_active (d : ProgressbarData) : Prop :=
  d.ticks_count ≠ 0 ∧ d.ticks_gap ≠ 0

instance (d : ProgressbarData) : Decidable (ticks_active d) := by
  unfold ticks_active; infer_instance

/-- Vertical mode: per-bar primary-axis thickness (line 167). -/
def pb_width_v (d : ProgressbarData) (n : ℤ) : ℤ :=
  cdiv (d.width - 2 * (d.border_width + d.border_padding) * n - d.gap * (n - 1)) n

/-- Vertical mode: the width stored in `w->area.width` and returned
(lines 169-171). -/
def area_width_v (d : ProgressbarData) (n : ℤ) : ℤ :=
  n * (pb_width_v d n + 2 * (d.border_width + d.border_padding) + d.gap) - d.gap

/-- Horizontal mode: secondary length before tick rounding (line 175). -/
def pb_width_h_raw (d : ProgressbarData) : ℤ :=
  d.width - 2 * (d.border_width + d.border_padding)

/-- Horizontal mode: tick unit (line 178); `0` when unquantized. -/
def unit_h (d : ProgressbarData) : ℤ :=
  if ticks_active d then cdiv (pb_width_h_raw d + d.ticks_gap) d.ticks_count else 0

/-- Horizontal mode: secondary length, tick-rounded when quantized
(line 179). -/
def pb_width_h (d : ProgressbarData) : ℤ :=
  if ticks_active d then unit_h d * d.ticks_count - d.ticks_gap
  else pb_width_h_raw d

/-- Horizontal mode: the width stored in `w->area.width` and returned
(line 181). -/
def area_width_h (d : ProgressbarData) : ℤ :=
  pb_width_h d + 2 * (d.border_width + d.border_padding)

/-- Vertical mode: secondary (fill) length before tick rounding
(lines 208-209). -/
def pb_height_v_raw (d : ProgressbarData) (ctxHeight : ℤ) : ℤ :=
  cint ((ctxHeight : ℚ) * d.height + 1/2) - 2 * (d.border_width + d.border_padding)

/-- Vertical mode: tick unit (line 213); `0` when unquantized. -/
def unit_v (d : ProgressbarData) (ctxHeight : ℤ) : ℤ :=
  if ticks_active d then cdiv (pb_height_v_raw d ctxHeight + d.ticks_gap) d.ticks_count
  else 0

/-- Vertical mode: secondary length, tick-rounded when quantized
(line 214). -/
def pb_height_v (d : ProgressbarData) (ctxHeight : ℤ) : ℤ :=
  if ticks_active d then unit_v d ctxHeight * d.ticks_count - d.ticks_gap
  else pb_height_v_raw d ctxHeight

/-- The y origin of the bar rectangle (lines 217-218 and 320-321, identical in
both orientations; `w->area.y` is `0`). -/
def pb_y_pos (d : ProgressbarData) (ctxHeight : ℤ) : ℤ :=
  cdiv (cint ((ctxHeight : ℚ) * (1 - d.height))) 2 + d.border_width + d.border_padding

/-- Horizontal mode: per-bar primary-axis thickness (lines 317-319), a
floating-point division by the bar count rounded by adding one half and
truncating. -/
def pb_height_h (d : ProgressbarData) (n ctxHeight : ℤ) : ℤ :=
  cint (((ctxHeight : ℚ) * d.height
          - (n : ℚ) * 2 * ((d.border_width + d.border_padding : ℤ) : ℚ)
          - ((d.gap * (n - 1) : ℤ) : ℚ)) / (n : ℚ) + 1/2)

/-- The per-bar progress length along the secondary axis, as computed at
lines 222-237 (vertical) and 325-337 (horizontal): quantized when ticks are
active, proportional otherwise. -/
def progress_len (tc tg unit secLen : ℤ) (mn mx v : ℚ) : ℤ :=
  if tc ≠ 0 ∧ tg ≠ 0 then
    let vt := cint ((tc : ℚ) * (v - mn) / (mx - mn) + 1/2)
    if vt ≠ 0 then vt * unit - tg else 0
  else cint ((secLen : ℚ) * (v - mn) / (mx - mn) + 1/2)

/-- Progress length of a bar under configuration `d`. -/
def bar_progress (d : ProgressbarData) (unit secLen : ℤ) (b : Bar) : ℤ :=
  progress_len d.ticks_count d.ticks_gap unit secLen b.min_value b.max_value b.value

/-- One drawing command handed to the external draw context: either
`draw_rectangle` (solid or outline) or `draw_rectangle_gradient`.  The second
rectangle of a gradient command is the pattern anchor `pattern_rect`. -/
inductive DrawCmd where
  | rect (x y w h : ℤ) (lw : ℚ) (filled : Bool) (color : Color)
  | gradient (x y w h : ℤ) (px py pw ph : ℤ)
      (c : Color) (cCenter cEnd : Option Color)
deriving DecidableEq

/-- The border block (lines 239-250 and 339-350): an optional padded
background fill followed by the border outline. -/
def border_cmds (rx ry rw rh bw bp : ℤ) (bg bc : Color) : List DrawCmd :=
  if bw ≠ 0 then
    (if bp ≠ 0 then [DrawCmd.rect rx ry rw rh 1 true bg] else []) ++
    [DrawCmd.rect rx ry rw rh (bw : ℚ) false bc]
  else []

/-- The tick-gap loop (lines 307-310 and 405-408): starting positions spaced
`u` apart from `y0` while they stay at most `yend`.  The fuel bounds the
iteration count; with `1 ≤ u` it is sufficient, and with `u ≤ 0` the C loop
either does not start or never terminates. -/
def gapLoop : ℕ → ℤ → ℤ → ℤ → List ℤ
  | 0, _, _, _ => []
  | fuel+1, y, yend, u => if yend < y then [] else y :: gapLoop fuel (y + u) yend u

/-- Positions of the tick-gap rectangles along the secondary axis. -/
def gap_starts (y0 yend u : ℤ) : List ℤ :=
  gapLoop (yend + 1 - y0).toNat y0 yend u

/-- Vertical bottom part (lines 270-284): the segment of secondary length `p`
at the bottom (low) end; solid `fg_off` when reversed, gradient otherwise.
`p` is the already-mirrored progress, `pat` the pattern anchor rectangle. -/
def bottom_part_v (pb_x pb_y pb_width pb_height off p : ℤ)
    (pat : ℤ × ℤ × ℤ × ℤ) (b : Bar) : List DrawCmd :=
  if 0 < p then
    [if b.reverse then
        DrawCmd.rect (pb_x + off) (pb_y + pb_height - p) pb_width p 1 true b.fg_off
      else
        DrawCmd.gradient (pb_x + off) (pb_y + pb_height - p) pb_width p
          pat.1 pat.2.1 pat.2.2.1 pat.2.2.2 b.fg b.pfg_center b.pfg_end]
  else []

/-- Vertical top part (lines 286-300): the segment of secondary length
`pb_height - p` at the top (high) end; gradient when reversed, solid `fg_off`
otherwise. -/
def top_part_v (pb_x pb_y pb_width pb_height off p : ℤ)
    (pat : ℤ × ℤ × ℤ × ℤ) (b : Bar) : List DrawCmd :=
  if 0 < pb_height - p then
    [if b.reverse then
        DrawCmd.gradient (pb_x + off) pb_y pb_width (pb_height - p)
          pat.1 pat.2.1 pat.2.2.1 pat.2.2.2 b.fg b.pfg_center b.pfg_end
      else
        DrawCmd.rect (pb_x + off) pb_y pb_width (pb_height - p) 1 true b.fg_off]
  else []

/-- Vertical tick gaps (lines 301-311). -/
def gap_cmds_v (d : ProgressbarData) (pb_x pb_y pb_width pb_height off u : ℤ)
    (b : Bar) : List DrawCmd :=
  if ticks_active d then
    (gap_starts (pb_y + (u - d.ticks_gap)) (pb_y + pb_height - d.ticks_gap) u).map
      (fun y => DrawCmd.rect (pb_x + off) y pb_width d.ticks_gap 1 true b.bg)
  else []

/-- All commands for one bar in vertical mode (loop body, lines 220-313). -/
def bar_cmds_v (d : ProgressbarData) (pb_x pb_y pb_width pb_height u off : ℤ)
    (b : Bar) : List DrawCmd :=
  let border := border_cmds (pb_x + off - d.border_width - d.border_padding)
      (pb_y - d.border_width - d.border_padding)
      (pb_width + 2 * (d.border_padding + d.border_width))
      (pb_height + 2 * (d.border_padding + d.border_width))
      d.border_width d.border_padding b.bg b.bordercolor
  let p0 := bar_progress d u pb_height b
  let p := if b.reverse then pb_height - p0 else p0
  let pat : ℤ × ℤ × ℤ × ℤ :=
    if b.reverse then (pb_x, pb_y, 0, pb_height)
    else (pb_x, pb_y + pb_height, 0, -pb_height)
  border ++ bottom_part_v pb_x pb_y pb_width pb_height off p pat b
         ++ top_part_v pb_x pb_y pb_width pb_height off p pat b
         ++ gap_cmds_v d pb_x pb_y pb_width pb_height off u b

/-- Horizontal left part (lines 368-382): the segment of secondary length `p`
at the left (low) end; solid `fg_off` when reversed, gradient otherwise. -/
def left_part_h (pb_x pb_y pb_width pb_height off p : ℤ)
    (pat : ℤ × ℤ × ℤ × ℤ) (b : Bar) : List DrawCmd :=
  if 0 < p then
    [if b.reverse then
        DrawCmd.rect pb_x (pb_y + off) p pb_height 1 true b.fg_off
      else
        DrawCmd.gradient pb_x (pb_y + off) p pb_height
          pat.1 pat.2.1 pat.2.2.1 pat.2.2.2 b.fg b.pfg_center b.pfg_end]
  else []

/-- Horizontal right part (lines 384-398): the segment of secondary length
`pb_width - p` at the right (high) end; gradient when reversed, solid
`fg_off` otherwise. -/
def right_part_h (pb_x pb_y pb_width pb_height off p : ℤ)
    (pat : ℤ × ℤ × ℤ × ℤ) (b : Bar) : List DrawCmd :=
  if 0 < pb_width - p then
    [if b.reverse then
        DrawCmd.gradient (pb_x + p) (pb_y + off) (pb_width - p) pb_height
          pat.1 pat.2.1 pat.2.2.1 pat.2.2.2 b.fg b.pfg_center b.pfg_end
      else
        DrawCmd.rect (pb_x + p) (pb_y + off) (pb_width - p) pb_height 1 true b.fg_off]
  else []

/-- Horizontal tick gaps (lines 399-409). -/
def gap_cmds_h (d : ProgressbarData) (pb_x pb_y pb_width pb_height off u : ℤ)
    (b : Bar) : List DrawCmd :=
  if ticks_active d then
    (gap_starts (pb_x + (u - d.ticks_gap)) (pb_x + pb_width - d.ticks_gap) u).map
      (fun x => DrawCmd.rect x (pb_y + off) d.ticks_gap pb_height 1 true b.bg)
  else []

/-- All commands for one bar in horizontal mode (loop body, lines 323-412). -/
def bar_cmds_h (d : ProgressbarData) (pb_x pb_y pb_width pb_height u off : ℤ)
    (b : Bar) : List DrawCmd :=
  let border := border_cmds (pb_x - d.border_width - d.border_padding)
      (pb_y + off - d.border_width - d.border_padding)
      (pb_width + 2 * (d.border_padding + d.border_width))
      (pb_height + 2 * (d.border_padding + d.border_width))
      d.border_width d.border_padding b.bg b.bordercolor
  let p0 := bar_progress d u pb_width b
  let p := if b.reverse then pb_width - p0 else p0
  let pat : ℤ × ℤ × ℤ × ℤ :=
    if b.reverse then (pb_x + pb_width, pb_y, -pb_width, 0)
    else (pb_x, pb_y, pb_width, 0)
  border ++ left_part_h pb_x pb_y pb_width pb_height off p pat b
         ++ right_part_h pb_x pb_y pb_width pb_height off p pat b
         ++ gap_cmds_h d pb_x pb_y pb_width pb_height off u b

/-- Vertical loop over bars: the primary offset advances by
`pb_width + gap + 2 (border_width + border_padding)` (line 312). -/
def bars_cmds_v (d : ProgressbarData) (pb_x pb_y pb_width pb_height u : ℤ) :
    List Bar → ℤ → List DrawCmd
  | [], _ => []
  | b :: rest, off =>
    bar_cmds_v d pb_x pb_y pb_width pb_height u off b ++
      bars_cmds_v d pb_x pb_y pb_width pb_height u rest
        (off + pb_width + d.gap + 2 * (d.border_width + d.border_padding))

/-- Horizontal loop over bars: the primary offset advances by
`pb_height + gap + 2 (border_width + border_padding)` (line 411). -/
def bars_cmds_h (d : ProgressbarData) (pb_x pb_y pb_width pb_height u : ℤ) :
    List Bar → ℤ → List DrawCmd
  | [], _ => []
  | b :: rest, off =>
    bar_cmds_h d pb_x pb_y pb_width pb_height u off b ++
      bars_cmds_h d pb_x pb_y pb_width pb_height u rest
        (off + pb_height + d.gap + 2 * (d.border_width + d.border_padding))

/-- The draw entry point `progressbar_draw`: returns the value of
`w->area.width` (the returned extent) together with the emitted command
sequence.  `ctxWidth` is consumed only by the external
`widget_calculate_offset`; the x origin it produces is the input `areaX`. -/
def progressbar_draw (d : ProgressbarData) (ctxWidth ctxHeight areaX : ℤ) :
    ℤ × List DrawCmd :=
  match d.bars with
  | [] => (0, [])
  | _ :: _ =>
    let n : ℤ := d.bars.length
    let pb_x := areaX + d.border_width + d.border_padding
    if d.vertical then
      (area_width_v d n,
        bars_cmds_v d pb_x (pb_y_pos d ctxHeight) (pb_width_v d n)
          (pb_height_v d ctxHeight) (unit_v d ctxHeight) d.bars 0)
    else
      (area_width_h d,
        bars_cmds_h d pb_x (pb_y_pos d ctxHeight) (pb_width_h d)
          (pb_height_h d n ctxHeight) (unit_h d) d.bars 0)

/-! ### Definitions following the wording of the spec, for comparison -/

/-- Phase one of the range update, following the wording of spec section 4.1:
apply `new_min` if present, then if `max_value ≤ min_value` bump
`max_value` by epsilon, and raise `value` to `min_value` if below it. -/
def spec_apply_new_min (b : Bar) (nmin : Option ℚ) : Bar :=
  let b := { b with min_value := nmin.getD b.min_value }
  let b := if b.max_value ≤ b.min_value then
      { b with max_value := b.max_value + 1/10000 } else b
  if b.value < b.min_value then { b with value := b.min_value } else b

/-- Phase two of the range update, following the wording of spec section 4.1:
apply `new_max` if present, then if `min_value ≥ max_value` pull
`min_value` to `max_value` minus epsilon, and lower `value` to `max_value`
if above it. -/
def spec_apply_new_max (b : Bar) (nmax : Option ℚ) : Bar :=
  let b := { b with max_value := nmax.getD b.max_value }
  let b := if b.min_value ≥ b.max_value then
      { b with min_value := b.max_value - 1/10000 } else b
  if b.value > b.max_value then { b with value := b.max_value } else b

/-- The progress-length formula as worded in the spec (section 4.3 step 1):
quantized when `ticks_count > 0` and `ticks_gap > 0`, with the
`ticks > 0` guard, and continuous otherwise. -/
def spec_progress_len (tc tg unit secLen : ℤ) (mn mx v : ℚ) : ℤ :=
  if 0 < tc ∧ 0 < tg then
    let t := cint ((tc : ℚ) * (v - mn) / (mx - mn) + 1/2)
    if 0 < t then t * unit - tg else 0
  else cint ((secLen : ℚ) * (v - mn) / (mx - mn) + 1/2)

/-- Per-bar primary-axis thickness in vertical mode as worded in spec
section 4.2: `(W - 2 n (border_width + border_padding) - gap (n-1)) / n`
with integer (truncating) division. -/
def spec_thickness_v (W bw bp gap n : ℤ) : ℤ :=
  cdiv (W - 2 * n * (bw + bp) - gap * (n - 1)) n

/-- Total primary-axis extent as worded in spec section 4.2:
`n (thickness + 2 (border_width + border_padding)) + gap (n-1)`. -/
def spec_extent (t bw bp gap n : ℤ) : ℤ :=
  n * (t + 2 * (bw + bp)) + gap * (n - 1)

/-- Total primary-axis (vertical) extent consumed in horizontal mode, as the
spec defines the primary axis: the bars are stacked top to bottom, each
taking `pb_height_h` plus borders, with `gap` pixels between bars. -/
def spec_primary_extent_h (d : ProgressbarData) (n ctxHeight : ℤ) : ℤ :=
  spec_extent (pb_height_h d n ctxHeight) d.border_width d.border_padding d.gap n

/-- Closed form of the number of iterations of the tick-gap loop. -/
def gcount (y yend u : ℤ) : ℕ :=
  if y ≤ yend then (yend - y).toNat / u.toNat + 1 else 0

/-! ### Concrete configurations used as test inputs -/

/-- A reversed bar at three quarters, with pairwise distinct colors. -/
def c1_bar : Bar :=
  { title := "r", min_value := 0, max_value := 100, value := 75,
    reverse := true, fg := 5, fg_off := 6, bg := 7, bordercolor := 8,
    pfg_center := none, pfg_end := none }

/-- A borderless one-bar vertical widget of width 20. -/
def c1_data : ProgressbarData :=
  { progressbar_new with
    vertical := true, width := 20, border_width := 0,
    border_padding := 0, bars := [c1_bar] }

/-- A half-full bar with default-like range. -/
def c4_bar : Bar :=
  { title := "a", min_value := 0, max_value := 100, value := 50,
    reverse := false, fg := 3, fg_off := 4, bg := 4, bordercolor := 3,
    pfg_center := none, pfg_end := none }

/-- The spec example: `width = 80`, `border_width = 1`, `border_padding = 0`,
`gap = 2`, horizontal, no ticks, one bar with `min 0`, `max 100`,
`value 50`. -/
def c4_data : ProgressbarData :=
  { progressbar_new with bars := [c4_bar] }

/-- Two bars in horizontal mode, default geometry. -/
def c5_data : ProgressbarData :=
  { progressbar_new with bars := [c4_bar, { c4_bar with title := "b" }] }

/-- A full bar with pairwise distinct colors. -/
def c6_bar : Bar :=
  { title := "f", min_value := 0, max_value := 100, value := 100,
    reverse := false, fg := 5, fg_off := 6, bg := 7, bordercolor := 8,
    pfg_center := none, pfg_end := none }

/-- A borderless horizontal widget with 4 ticks of gap 1: unit 20,
secondary length 79. -/
def c6_data : ProgressbarData :=
  { progressbar_new with
    border_width := 0, ticks_count := 4, ticks_gap := 1,
    height := 1, bars := [c6_bar] }

/-- The spec example: two bars in vertical mode, `width = 50`,
`border_width = 1`, `border_padding = 1`, `gap = 2`. -/
def c7_data : ProgressbarData :=
  { progressbar_new with
    width := 50, border_width := 1, border_padding := 1,
    gap := 2, vertical := true, bars := [c4_bar, { c4_bar with title := "b" }] }

/-! ### Helper lemmas -/

theorem rfloor_eq_floor (q : ℚ) : rfloor q = ⌊q⌋ := Rat.floor_def.symm

theorem cint_of_nonneg {q : ℚ} (h : 0 ≤ q) : cint q = ⌊q⌋ := by
  rw [cint, if_neg (not_lt.mpr h), rfloor_eq_floor]

theorem cint_nonneg {q : ℚ} (h : 0 ≤ q) : 0 ≤ cint q := by
  rw [cint_of_nonneg h]
  exact Int.floor_nonneg.mpr h

theorem cint_mono {a b : ℚ} (ha : 0 ≤ a) (hab : a ≤ b) : cint a ≤ cint b := by
  rw [cint_of_nonneg ha, cint_of_nonneg (ha.trans hab)]
  exact Int.floor_le_floor hab

/-! ### Invariant lemmas for the bar registry -/

theorem barInv_range_set (b : Bar) (nmin nmax : Option ℚ) :
    barInv (bar_range_set b nmin nmax) := by
  unfold bar_range_set barInv
  dsimp only
  split_ifs <;> dsimp only <;> refine ⟨?_, ?_, ?_⟩ <;> linarith

theorem range_set_only_numeric (b : Bar) (nmin nmax : Option ℚ) :
    (bar_range_set b nmin nmax).title = b.title ∧
    (bar_range_set b nmin nmax).reverse = b.reverse ∧
    (bar_range_set b nmin nmax).fg = b.fg ∧
    (bar_range_set b nmin nmax).fg_off = b.fg_off ∧
    (bar_range_set b nmin nmax).bg = b.bg ∧
    (bar_range_set b nmin nmax).bordercolor = b.bordercolor ∧
    (bar_range_set b nmin nmax).pfg_center = b.pfg_center ∧
    (bar_range_set b nmin nmax).pfg_end = b.pfg_end := by
  unfold bar_range_set
  dsimp only
  split_ifs <;> exact ⟨rfl, rfl, rfl, rfl, rfl, rfl, rfl, rfl⟩

theorem barInv_props_apply (b : Bar) (p : BarProps) :
    barInv (bar_props_apply b p) := by
  have h := barInv_range_set (bar_colors_set b p) p.min_value p.max_value
  unfold bar_props_apply
  unfold barInv at h ⊢
  exact h

theorem barInv_bar_add (th : Theme) (t : String) :
    barInv (progressbar_bar_add th t) := by
  refine ⟨?_, ?_, ?_⟩ <;> norm_num [progressbar_bar_add]

theorem barInv_value_clamp (b : Bar) (x : ℚ) (h : barInv b) :
    barInv (bar_value_clamp b x) := by
  obtain ⟨h1, _, _⟩ := h
  refine ⟨h1, le_max_left _ _, max_le h1.le (min_le_left _ _)⟩

theorem bar_update_inv (th : Theme) (t : String) (f : Bar → Bar)
    (hf : ∀ b, barInv b → barInv (f b)) :
    ∀ bars : List Bar, (∀ b ∈ bars, barInv b) →
      ∀ b ∈ bar_update th t f bars, barInv b := by
  intro bars
  induction bars with
  | nil =>
    intro _ b hb
    simp only [bar_update, List.mem_singleton] at hb
    exact hb ▸ hf _ (barInv_bar_add th t)
  | cons hd tl ih =>
    intro hall b hb
    simp only [bar_update] at hb
    split_ifs at hb with htitle
    · rcases List.mem_cons.mp hb with h | h
      · exact h ▸ hf _ (hall hd (List.mem_cons_self hd tl))
      · exact hall b (List.mem_cons_of_mem hd h)
    · rcases List.mem_cons.mp hb with h | h
      · exact h ▸ hall hd (List.mem_cons_self hd tl)
      · exact ih (fun x hx => hall x (List.mem_cons_of_mem hd hx)) b h

theorem apply_op_inv (th : Theme) (bars : List Bar) (op : PbOp)
    (hall : ∀ b ∈ bars, barInv b) : ∀ b ∈ apply_op th bars op, barInv b := by
  cases op with
  | propSet t p =>
    exact bar_update_inv th t _ (fun b _ => barInv_props_apply b p) bars hall
  | dataAdd t x =>
    exact bar_update_inv th t _ (fun b h => barInv_value_clamp b x h) bars hall

theorem foldl_ops_inv (th : Theme) :
    ∀ (ops : List PbOp) (bars : List Bar), (∀ b ∈ bars, barInv b) →
      ∀ b ∈ ops.foldl (apply_op th) bars, barInv b := by
  intro ops
  induction ops with
  | nil => intro bars hall b hb; exact hall b hb
  | cons op rest ih =>
    intro bars hall b hb
    exact ih (apply_op th bars op) (apply_op_inv th bars op hall) b hb

/-! ### Claim theorems: the bar registry -/

/-- C2: after every mutating operation on a bar (creation by upsert with
defaults `min_value = 0`, `max_value = 100`, `value = 0`;
bar-properties-set with any combination of `min_value`/`max_value` keys,
including values that jump the minimum far above the old maximum;
value-add), the bar satisfies `min_value < max_value` strictly and
`min_value ≤ value ≤ max_value`. -/
theorem c2_registry_invariant (th : Theme) (ops : List PbOp) :
    ∀ b ∈ apply_ops th ops, barInv b :=
  foldl_ops_inv th ops [] (by intro b hb; exact absurd hb (List.not_mem_nil b))

theorem c2_registry_invariant_witness :
    barInv { title := "a", min_value := 100, max_value := 1000001/10000,
             value := 1000001/10000, reverse := false, fg := 3, fg_off := 4,
             bg := 4, bordercolor := 3, pfg_center := none, pfg_end := none } :=
  c2_registry_invariant { fg := 3, bg := 4 }
    [.propSet "a" { min_value := some 200 }] _
    (by
      have h : apply_ops { fg := 3, bg := 4 }
          [.propSet "a" { min_value := some 200 }] =
          [{ title := "a", min_value := 100, max_value := 1000001/10000,
             value := 1000001/10000, reverse := false, fg := 3, fg_off := 4,
             bg := 4, bordercolor := 3, pfg_center := none, pfg_end := none }] := by
        simp only [apply_ops, List.foldl, apply_op, bar_update, bar_props_apply,
          bar_colors_set, direct_color_set, bar_range_set, progressbar_bar_add]
        norm_num
      rw [h]
      exact List.mem_singleton_self _)

/-- C3: range updates in bar-properties-set are applied in the fixed
two-phase order of the spec (first reconcile against the old maximum after
storing the new minimum, then store the new maximum and reconcile the
minimum and value against it); in particular, setting `max_value = 5` on a
bar with `min_value = 10` results in `min_value = 5 - 0.0001`. -/
theorem c3_two_phase_range_update :
    (∀ (b : Bar) (nmin nmax : Option ℚ),
        bar_range_set b nmin nmax = spec_apply_new_max (spec_apply_new_min b nmin) nmax) ∧
    (∀ b : Bar, b.min_value = 10 →
        (bar_range_set b none (some 5)).min_value = 5 - 1/10000) := by
  constructor
  · intro b nmin nmax; rfl
  · intro b h
    unfold bar_range_set
    simp only [Option.getD_none, Option.getD_some, h]
    split_ifs <;> (try dsimp only at *) <;> first | (exfalso; linarith) | norm_num

theorem c3_two_phase_range_update_witness :
    (bar_range_set
        { title := "t", min_value := 10, max_value := 100, value := 50,
          reverse := false, fg := 0, fg_off := 1, bg := 1, bordercolor := 0,
          pfg_center := none, pfg_end := none } none (some 5)).min_value
      = 5 - 1/10000 :=
  c3_two_phase_range_update.2 _ rfl

/-- C9: when the bar collection is empty the draw entry point is a no-op:
it emits zero draw commands and returns extent `0`; the per-bar division by
the bar count sits behind this early return and is never reached. -/
theorem c9_empty_draw_noop (d : ProgressbarData) (ctxWidth ctxHeight areaX : ℤ)
    (h : d.bars = []) : progressbar_draw d ctxWidth ctxHeight areaX = (0, []) := by
  unfold progressbar_draw
  rw [h]

theorem c9_empty_draw_noop_witness :
    progressbar_draw progressbar_new 100 20 0 = (0, []) :=
  c9_empty_draw_noop progressbar_new 100 20 0 rfl

/-- C10: a failed `fg_center`/`fg_end` resolution leaves the optional
gradient color exactly as it was: when the bar had no such color, the
freshly allocated slot is released and the pointer restored to null (the
bar keeps rendering as a solid fill); when the bar already had one, the
pointer stays non-null. -/
theorem c10_pcolor_failed_resolution :
    (∀ old : Option Color, progressbar_pcolor_set old none = old) ∧
    (∀ (b : Bar) (p : BarProps),
        (bar_props_apply b { p with fg_center := some none }).pfg_center = b.pfg_center) ∧
    (∀ (b : Bar) (p : BarProps),
        (bar_props_apply b { p with fg_end := some none }).pfg_end = b.pfg_end) := by
  have hpc : ∀ old : Option Color, progressbar_pcolor_set old none = old := by
    intro old; cases old <;> rfl
  refine ⟨hpc, ?_, ?_⟩
  · intro b p
    unfold bar_props_apply
    dsimp only
    rw [(range_set_only_numeric _ _ _).2.2.2.2.2.2.1]
    unfold bar_colors_set
    dsimp only
    exact hpc b.pfg_center
  · intro b p
    unfold bar_props_apply
    dsimp only
    rw [(range_set_only_numeric _ _ _).2.2.2.2.2.2.2]
    unfold bar_colors_set
    dsimp only
    exact hpc b.pfg_end

/-! ### Claim theorems: layout and rendering -/

/-- C7: in vertical mode with `n ≥ 1` bars the per-bar primary-axis
thickness equals `(width - 2 n (border_width + border_padding) - gap (n-1)) / n`
with truncating integer division, and the reported total primary-axis extent
equals `n (thickness + 2 (border_width + border_padding)) + gap (n-1)`;
for `n = 2`, `width = 50`, `border_width = 1`, `border_padding = 1`,
`gap = 2` the thickness is `20` and the returned extent is `50`. -/
theorem c7_vertical_layout :
    (∀ (d : ProgressbarData) (n : ℤ),
        pb_width_v d n =
          spec_thickness_v d.width d.border_width d.border_padding d.gap n) ∧
    (∀ (d : ProgressbarData) (n : ℤ),
        area_width_v d n =
          spec_extent (pb_width_v d n) d.border_width d.border_padding d.gap n) ∧
    pb_width_v c7_data 2 = 20 ∧
    (progressbar_draw c7_data 100 20 0).1 = 50 := by
  refine ⟨?_, ?_, ?_, ?_⟩
  · intro d n
    unfold pb_width_v spec_thickness_v
    congr 1
    ring
  · intro d n
    unfold area_width_v spec_extent
    ring
  · with_unfolding_all decide
  · with_unfolding_all decide

/-- C5 counterexample: in horizontal mode the draw entry point returns the
widget width (`80` for the default configuration with two bars), not the
total primary-axis (vertical) extent consumed by the stacked bars, which at
canvas height `20` is `16`. -/
theorem c5_returned_extent_cex :
    (progressbar_draw c5_data 100 20 0).1 = 80 ∧
    spec_primary_extent_h c5_data 2 20 = 16 ∧
    (80 : ℤ) ≠ 16 := by
  refine ⟨?_, ?_, ?_⟩ <;> with_unfolding_all decide

/-- C5 (amended): for a non-empty bar collection the draw entry point
returns `w->area.width`: in vertical mode this is the total primary-axis
extent `n (thickness + 2 (border_width + border_padding)) + gap (n-1)`, but
in horizontal mode it is the secondary-axis extent
`pb_width + 2 (border_width + border_padding)` (the widget width), not the
primary-axis extent along which the bars are stacked. -/
theorem c5_returned_extent (d : ProgressbarData) (cw ch x : ℤ)
    (h : d.bars ≠ []) :
    (d.vertical = true →
      (progressbar_draw d cw ch x).1 =
        spec_extent (pb_width_v d d.bars.length) d.border_width
          d.border_padding d.gap d.bars.length) ∧
    (d.vertical = false →
      (progressbar_draw d cw ch x).1 =
        pb_width_h d + 2 * (d.border_width + d.border_padding)) := by
  cases hb : d.bars with
  | nil => exact absurd hb h
  | cons b rest =>
    unfold progressbar_draw
    rw [hb]
    constructor
    · intro hv
      rw [hv, if_pos rfl]
      unfold area_width_v spec_extent
      dsimp only
      ring
    · intro hv
      rw [hv, if_neg (by simp)]
      unfold area_width_h
      rfl

theorem c5_returned_extent_witness :
    (progressbar_draw c5_data 100 20 0).1 =
      pb_width_h c5_data + 2 * (c5_data.border_width + c5_data.border_padding) :=
  (c5_returned_extent c5_data 100 20 0 (by with_unfolding_all decide)).2 rfl

/-- C4: the progress length along the secondary axis follows the claimed
formula (quantized: `ticks = truncate(ticks_count (value - min) / (max - min)
+ 0.5)` and `progress = ticks > 0 ? ticks unit - ticks_gap : 0`; continuous:
`progress = truncate(secondary_length (value - min) / (max - min) + 0.5)`),
and on the spec example (`width = 80`, `border_width = 1`,
`border_padding = 0`, horizontal, no ticks, bar `min 0` `max 100`
`value 50`) the emitted fill segment is 39 px long out of 78 px usable. -/
theorem c4_progress_formula :
    (∀ (tc tg unit secLen : ℤ) (mn mx v : ℚ), 0 ≤ tc → 0 ≤ tg → mn < mx →
        mn ≤ v →
        progress_len tc tg unit secLen mn mx v =
          spec_progress_len tc tg unit secLen mn mx v) ∧
    pb_width_h c4_data = 78 ∧
    ((progressbar_draw c4_data 200 20 0).2)[1]? =
      some (DrawCmd.gradient 1 3 39 14 1 3 78 0 3 none none) := by
  refine ⟨?_, by with_unfolding_all decide, by with_unfolding_all decide⟩
  intro tc tg unit secLen mn mx v htc htg hmx hv
  unfold progress_len spec_progress_len
  have hd : (0 : ℚ) < mx - mn := sub_pos.mpr hmx
  by_cases h1 : tc ≠ 0 ∧ tg ≠ 0
  · have h2 : 0 < tc ∧ 0 < tg :=
      ⟨lt_of_le_of_ne htc (Ne.symm h1.1), lt_of_le_of_ne htg (Ne.symm h1.2)⟩
    rw [if_pos h1, if_pos h2]
    have hq : 0 ≤ (tc : ℚ) * (v - mn) / (mx - mn) + 1/2 := by
      have := div_nonneg
        (mul_nonneg (Int.cast_nonneg.mpr htc) (sub_nonneg.mpr hv)) hd.le
      linarith
    have hnn := cint_nonneg hq
    by_cases ht : cint ((tc : ℚ) * (v - mn) / (mx - mn) + 1/2) = 0
    · rw [if_neg (by omega), if_neg (by omega)]
    · rw [if_pos ht, if_pos (by omega)]
  · rw [if_neg h1, if_neg (by omega : ¬(0 < tc ∧ 0 < tg))]

theorem c4_progress_formula_witness :
    progress_len 0 0 0 78 0 100 50 = spec_progress_len 0 0 0 78 0 100 50 :=
  c4_progress_formula.1 0 0 0 78 0 100 50 le_rfl le_rfl
    (by with_unfolding_all decide) (by with_unfolding_all decide)

/-- C8 counterexample: with a negative secondary length (reachable when the
borders exceed the configured width, e.g. `width = 0`, `border_width = 5`
gives `secondary = -10`), the continuous progress length is strictly
decreasing in the value: for the range `[0, 100]` it is `0` at value `0`
but `-9` at value `100`. -/
theorem c8_progress_monotone_cex :
    (0 : ℚ) ≤ 0 ∧ (0 : ℚ) ≤ 100 ∧ (100 : ℚ) ≤ 100 ∧
    progress_len 0 0 0 (-10) 0 100 0 = 0 ∧
    progress_len 0 0 0 (-10) 0 100 100 = -9 ∧
    ¬ progress_len 0 0 0 (-10) 0 100 0 ≤ progress_len 0 0 0 (-10) 0 100 100 := by
  refine ⟨?_, ?_, ?_, ?_, ?_, ?_⟩ <;> with_unfolding_all decide

/-- C8 (amended): for a fixed valid range `min < max` and fixed quantization
settings with nonnegative secondary length and `ticks_gap ≤ unit` (which
holds whenever the configured geometry is nondegenerate), the computed
progress length is monotonically non-decreasing in the value, in both the
quantized and the continuous formula. -/
theorem c8_progress_monotone (tc tg unit secLen : ℤ) (mn mx v1 v2 : ℚ)
    (hmx : mn < mx) (hv1 : mn ≤ v1) (hv12 : v1 ≤ v2) (hsec : 0 ≤ secLen)
    (htg : 0 ≤ tg) (htgu : tg ≤ unit) (htc : 0 ≤ tc) :
    progress_len tc tg unit secLen mn mx v1 ≤
      progress_len tc tg unit secLen mn mx v2 := by
  unfold progress_len
  have hd : (0 : ℚ) < mx - mn := sub_pos.mpr hmx
  have hmono : ∀ c : ℤ, 0 ≤ c →
      (c : ℚ) * (v1 - mn) / (mx - mn) + 1/2 ≤
        (c : ℚ) * (v2 - mn) / (mx - mn) + 1/2 := by
    intro c hc
    have hnum : (c : ℚ) * (v1 - mn) ≤ (c : ℚ) * (v2 - mn) :=
      mul_le_mul_of_nonneg_left (by linarith) (Int.cast_nonneg.mpr hc)
    have := (div_le_div_iff_of_pos_right hd).mpr hnum
    linarith
  have hqnn : ∀ c : ℤ, 0 ≤ c →
      0 ≤ (c : ℚ) * (v1 - mn) / (mx - mn) + 1/2 := by
    intro c hc
    have := div_nonneg
      (mul_nonneg (Int.cast_nonneg.mpr hc) (sub_nonneg.mpr hv1)) hd.le
    linarith
  by_cases h1 : tc ≠ 0 ∧ tg ≠ 0
  · rw [if_pos h1, if_pos h1]
    dsimp only
    have ht1nn := cint_nonneg (hqnn tc htc)
    have htmono := cint_mono (hqnn tc htc) (hmono tc htc)
    have hu0 : 0 ≤ unit := htg.trans htgu
    by_cases ht1 : cint ((tc : ℚ) * (v1 - mn) / (mx - mn) + 1/2) = 0
    · rw [if_neg (by omega)]
      by_cases ht2 : cint ((tc : ℚ) * (v2 - mn) / (mx - mn) + 1/2) = 0
      · rw [if_neg (by omega)]
      · rw [if_pos ht2]
        have h2one : 1 ≤ cint ((tc : ℚ) * (v2 - mn) / (mx - mn) + 1/2) := by
          omega
        have := mul_le_mul_of_nonneg_right h2one hu0
        linarith
    · rw [if_pos ht1, if_pos
        (by omega : ¬cint ((tc : ℚ) * (v2 - mn) / (mx - mn) + 1/2) = 0)]
      have := mul_le_mul_of_nonneg_right htmono hu0
      linarith
  · rw [if_neg h1, if_neg h1]
    exact cint_mono (hqnn secLen hsec) (hmono secLen hsec)

theorem c8_progress_monotone_witness :
    progress_len 0 0 0 78 0 100 30 ≤ progress_len 0 0 0 78 0 100 60 :=
  c8_progress_monotone 0 0 0 78 0 100 30 60
    (by with_unfolding_all decide) (by with_unfolding_all decide)
    (by with_unfolding_all decide) (by decide) le_rfl le_rfl le_rfl

/-- C1 counterexample: for a reversed vertical bar at value 75 (geometry:
secondary length 16, mirrored progress 4), the emitted commands are a solid
`fg_off` rectangle of height 4 at the bottom (low) end and a gradient
rectangle of height 12 covering the high end; the high-end command is not
the solid `fg_off` rectangle the claim requires (reversal does not suppress
the gradient). -/
theorem c1_reverse_gradient_cex :
    (progressbar_draw c1_data 100 20 0).2 =
      [DrawCmd.rect 0 14 20 4 1 true 6,
       DrawCmd.gradient 0 2 20 12 0 2 0 16 5 none none] ∧
    ((progressbar_draw c1_data 100 20 0).2)[1]? ≠
      some (DrawCmd.rect 0 2 20 12 1 true c1_bar.fg_off) := by
  constructor <;> with_unfolding_all decide

/-- C1 (amended): for every reversed bar, after the mirroring step the
segment at the traditional low end of the secondary axis (bottom in
vertical mode, left in horizontal mode), whose length is the mirrored
progress (the unfilled amount), is drawn solid with `fg_off`, while the
complementary high-end segment, whose length is the original progress (the
filled amount), is drawn with the gradient `fg → fg_center → fg_end`;
reversal does not suppress the gradient. -/
theorem c1_reverse_fill_semantics (d : ProgressbarData)
    (pb_x pb_y pbw pbh u off : ℤ) (b : Bar) (hrev : b.reverse = true) :
    (bar_cmds_v d pb_x pb_y pbw pbh u off b =
      border_cmds (pb_x + off - d.border_width - d.border_padding)
          (pb_y - d.border_width - d.border_padding)
          (pbw + 2 * (d.border_padding + d.border_width))
          (pbh + 2 * (d.border_padding + d.border_width))
          d.border_width d.border_padding b.bg b.bordercolor
        ++ (if 0 < pbh - bar_progress d u pbh b then
              [DrawCmd.rect (pb_x + off) (pb_y + bar_progress d u pbh b) pbw
                (pbh - bar_progress d u pbh b) 1 true b.fg_off]
            else [])
        ++ (if 0 < bar_progress d u pbh b then
              [DrawCmd.gradient (pb_x + off) pb_y pbw (bar_progress d u pbh b)
                pb_x pb_y 0 pbh b.fg b.pfg_center b.pfg_end]
            else [])
        ++ gap_cmds_v d pb_x pb_y pbw pbh off u b) ∧
    (bar_cmds_h d pb_x pb_y pbw pbh u off b =
      border_cmds (pb_x - d.border_width - d.border_padding)
          (pb_y + off - d.border_width - d.border_padding)
          (pbw + 2 * (d.border_padding + d.border_width))
          (pbh + 2 * (d.border_padding + d.border_width))
          d.border_width d.border_padding b.bg b.bordercolor
        ++ (if 0 < pbw - bar_progress d u pbw b then
              [DrawCmd.rect pb_x (pb_y + off) (pbw - bar_progress d u pbw b)
                pbh 1 true b.fg_off]
            else [])
        ++ (if 0 < bar_progress d u pbw b then
              [DrawCmd.gradient (pb_x + (pbw - bar_progress d u pbw b))
                (pb_y + off) (bar_progress d u pbw b) pbh
                (pb_x + pbw) pb_y (-pbw) 0 b.fg b.pfg_center b.pfg_end]
            else [])
        ++ gap_cmds_h d pb_x pb_y pbw pbh off u b) := by
  constructor
  · unfold bar_cmds_v bottom_part_v top_part_v
    simp only [hrev, if_true, sub_sub_cancel]
    rw [show pb_y + pbh - (pbh - bar_progress d u pbh b) =
          pb_y + bar_progress d u pbh b from by ring]
  · unfold bar_cmds_h left_part_h right_part_h
    simp only [hrev, if_true, sub_sub_cancel]

theorem c1_reverse_fill_semantics_witness :
    bar_cmds_v c1_data 0 2 20 16 0 0 c1_bar =
      border_cmds (0 + 0 - c1_data.border_width - c1_data.border_padding)
          (2 - c1_data.border_width - c1_data.border_padding)
          (20 + 2 * (c1_data.border_padding + c1_data.border_width))
          (16 + 2 * (c1_data.border_padding + c1_data.border_width))
          c1_data.border_width c1_data.border_padding c1_bar.bg c1_bar.bordercolor
        ++ (if 0 < 16 - bar_progress c1_data 0 16 c1_bar then
              [DrawCmd.rect (0 + 0) (2 + bar_progress c1_data 0 16 c1_bar) 20
                (16 - bar_progress c1_data 0 16 c1_bar) 1 true c1_bar.fg_off]
            else [])
        ++ (if 0 < bar_progress c1_data 0 16 c1_bar then
              [DrawCmd.gradient (0 + 0) 2 20 (bar_progress c1_data 0 16 c1_bar)
                0 2 0 16 c1_bar.fg c1_bar.pfg_center c1_bar.pfg_end]
            else [])
        ++ gap_cmds_v c1_data 0 2 20 16 0 0 c1_bar :=
  (c1_reverse_fill_semantics c1_data 0 2 20 16 0 0 c1_bar rfl).1

/-- One unrolling of the gap count: while the start position is within
bounds, stepping by a positive `u` lowers the count by one. -/
theorem gcount_step (y yend u : ℤ) (hu : 0 < u) (hy : y ≤ yend) :
    gcount y yend u = gcount (y + u) yend u + 1 := by
  unfold gcount
  by_cases hyu : y + u ≤ yend
  · rw [if_pos hy, if_pos hyu]
    have h1 : (yend - y).toNat = (yend - (y + u)).toNat + u.toNat := by omega
    rw [h1, Nat.add_div_right _ (by omega : 0 < u.toNat)]
  · rw [if_pos hy, if_neg hyu, Nat.div_eq_of_lt (by omega)]

/-- The tick-gap loop enumerates exactly `gcount` positions spaced `u`
apart, provided the fuel covers the iteration count. -/
theorem gapLoop_closed (u : ℤ) (hu : 0 < u) :
    ∀ (fuel : ℕ) (y yend : ℤ), (yend + 1 - y).toNat ≤ fuel →
      gapLoop fuel y yend u =
        (List.range (gcount y yend u)).map (fun (k : ℕ) => y + (k : ℤ) * u) := by
  intro fuel
  induction fuel with
  | zero =>
    intro y yend hf
    unfold gapLoop gcount
    rw [if_neg (by omega : ¬y ≤ yend)]
    simp
  | succ f ih =>
    intro y yend hf
    unfold gapLoop
    by_cases hy : yend < y
    · rw [if_pos hy]
      unfold gcount
      rw [if_neg (by omega)]
      simp
    · rw [if_neg hy, ih (y + u) yend (by omega),
        gcount_step y yend u hu (by omega), List.range_succ_eq_map,
        List.map_cons, List.map_map]
      congr 1
      · simp
      · congr 1
        funext k
        simp only [Function.comp_apply]
        push_cast
        ring

/-- Closed form of `gap_starts` for positive unit. -/
theorem gap_starts_closed (y0 yend u : ℤ) (hu : 0 < u) :
    gap_starts y0 yend u =
      (List.range (gcount y0 yend u)).map (fun (k : ℕ) => y0 + (k : ℤ) * u) :=
  gapLoop_closed u hu _ y0 yend le_rfl

/-- With the secondary length rounded to `unit ticks_count - ticks_gap` and
a nondegenerate geometry (`0 < ticks_gap ≤ unit`), the gap loop runs exactly
`ticks_count - 1` times. -/
theorem gcount_ticks (pbY u tc tg : ℤ) (htg : 0 < tg) (htgu : tg ≤ u)
    (htc : 0 < tc) :
    gcount (pbY + (u - tg)) (pbY + (u * tc - tg) - tg) u = (tc - 1).toNat := by
  have hu : 0 < u := htg.trans_le htgu
  rcases eq_or_lt_of_le (by omega : (1 : ℤ) ≤ tc) with h1 | h2
  · unfold gcount
    rw [if_neg (by nlinarith)]
    omega
  · have h2u : u * 2 ≤ u * tc := by
      exact mul_le_mul_of_nonneg_left (by omega) hu.le
    unfold gcount
    rw [if_pos (by nlinarith)]
    have hval : pbY + (u * tc - tg) - tg - (pbY + (u - tg)) =
        u * (tc - 2) + (u - tg) := by ring
    rw [hval]
    have e1 : ((u.toNat : ℕ) : ℤ) = u := Int.toNat_of_nonneg hu.le
    have e2 : (((tc - 2).toNat : ℕ) : ℤ) = tc - 2 :=
      Int.toNat_of_nonneg (by omega)
    have e3 : (((u - tg).toNat : ℕ) : ℤ) = u - tg :=
      Int.toNat_of_nonneg (by omega)
    have hcast : u * (tc - 2) + (u - tg) =
        ((u.toNat * (tc - 2).toNat + (u - tg).toNat : ℕ) : ℤ) := by
      push_cast
      rw [e1, e2, e3]
    rw [hcast, Int.toNat_natCast,
      Nat.mul_add_div (by omega : 0 < u.toNat),
      Nat.div_eq_of_lt (by omega : (u - tg).toNat < u.toNat)]
    omega

/-- C6 counterexample: for the concrete quantized configuration
(`ticks_count = 4`, `ticks_gap = 1`, borderless horizontal widget of width
80, so `unit = 20` and secondary length 79) the emitted commands are one
fill segment followed by only 3 background-colored gap rectangles, not the
`ticks_count = 4` the claim requires. -/
theorem c6_gap_rectangles_cex :
    (progressbar_draw c6_data 100 10 0).2 =
      [DrawCmd.gradient 0 0 79 10 0 0 79 0 5 none none,
       DrawCmd.rect 19 0 1 10 1 true 7,
       DrawCmd.rect 39 0 1 10 1 true 7,
       DrawCmd.rect 59 0 1 10 1 true 7] ∧
    ((progressbar_draw c6_data 100 10 0).2.countP fun c =>
      match c with
      | DrawCmd.rect _ _ _ _ _ _ col => col == 7
      | _ => false) = 3 ∧
    c6_data.ticks_count = 4 ∧
    (3 : ℤ) ≠ 4 := by
  refine ⟨?_, ?_, ?_, ?_⟩ <;> with_unfolding_all decide

/-- C6 (amended): when tick quantization is active and the geometry is
nondegenerate (`0 < ticks_gap ≤ unit`), the render pipeline draws, for each
bar and after its two fill segments, exactly `ticks_count - 1` solid
bg-colored gap rectangles of thickness `ticks_gap`, spaced every `unit`
along the secondary axis (the trailing gap of the last tick cell has been
trimmed off the rounded secondary length `unit ticks_count - ticks_gap`),
in both orientations. -/
theorem c6_gap_rectangles (d : ProgressbarData) (pb_x pb_y off u : ℤ)
    (pbw pbh : ℤ) (b : Bar) (hta : ticks_active d) (htg : 0 < d.ticks_gap)
    (htgu : d.ticks_gap ≤ u) (htc : 0 < d.ticks_count) :
    gap_cmds_v d pb_x pb_y pbw (u * d.ticks_count - d.ticks_gap) off u b =
      (List.range (d.ticks_count - 1).toNat).map
        (fun (k : ℕ) => DrawCmd.rect (pb_x + off)
          (pb_y + (u - d.ticks_gap) + (k : ℤ) * u) pbw d.ticks_gap 1 true b.bg) ∧
    gap_cmds_h d pb_x pb_y (u * d.ticks_count - d.ticks_gap) pbh off u b =
      (List.range (d.ticks_count - 1).toNat).map
        (fun (k : ℕ) => DrawCmd.rect (pb_x + (u - d.ticks_gap) + (k : ℤ) * u)
          (pb_y + off) d.ticks_gap pbh 1 true b.bg) := by
  have hu : 0 < u := htg.trans_le htgu
  constructor
  · unfold gap_cmds_v
    rw [if_pos hta,
      gap_starts_closed (pb_y + (u - d.ticks_gap))
        (pb_y + (u * d.ticks_count - d.ticks_gap) - d.ticks_gap) u hu,
      gcount_ticks pb_y u d.ticks_count d.ticks_gap htg htgu htc,
      List.map_map]
    rfl
  · unfold gap_cmds_h
    rw [if_pos hta,
      gap_starts_closed (pb_x + (u - d.ticks_gap))
        (pb_x + (u * d.ticks_count - d.ticks_gap) - d.ticks_gap) u hu,
      gcount_ticks pb_x u d.ticks_count d.ticks_gap htg htgu htc,
      List.map_map]
    rfl

theorem c6_gap_rectangles_witness :
    gap_cmds_v c6_data 0 0 79 (20 * c6_data.ticks_count - c6_data.ticks_gap)
        0 20 c6_bar =
      (List.range (c6_data.ticks_count - 1).toNat).map
        (fun (k : ℕ) => DrawCmd.rect (0 + 0)
          (0 + (20 - c6_data.ticks_gap) + (k : ℤ) * 20) 79 c6_data.ticks_gap
          1 true c6_bar.bg) :=
  (c6_gap_rectangles c6_data 0 0 0 20 79 10 c6_bar
    (by with_unfolding_all decide) (by decide) (by decide) (by decide)).1
